import Mathlib

/-!
Verification of the remirror extension slice: the React SSR transformer
pipeline (`ReactSSRExtension.onInitialize`), the helpers aggregation
extension (`HelpersExtension`), and the enhanced-link utilities
(`extractHref`, `isSetEqual`).

Rendered elements (`JSX.Element`), manager parameters and helper functions
are opaque to the code under verification, so they are type parameters of
the embedding.
-/

namespace RemirrorSpec

/-- Error codes raised through the `invariant` helper of the framework
(`ErrorConstant.DUPLICATE_HELPER_NAMES`,
`ErrorConstant.HELPERS_CALLED_IN_OUTER_SCOPE`). -/
inductive RemirrorError where
  | duplicateHelperNames (name : String)
  | helpersCalledInOuterScope
  deriving DecidableEq, Repr

/-! ### React SSR extension: `onInitialize` -/

/-- An SSR transformer maps a rendered element to a rendered element. -/
def SSRTransformer (α : Type) : Type :=
  α → α

/-- The slice of an extension seen by the SSR pipeline:
`extension.parameter.createSSRTransformer` (optional factory taking the
manager method parameter, of opaque type `π`) and
`extension.settings.exclude.reactSSR`. -/
structure SSRExtension (π α : Type) where
  createSSRTransformer : Option (π → SSRTransformer α)
  excludeReactSSR : Bool

/-- The composed `ssrTransformer` closure from `onInitialize`: starting from
`initialElement`, iterate over the `ssrTransformers` array, updating
`element` with the output of each transformer in turn. -/
def ssrTransformer {α : Type} (ssrTransformers : List (SSRTransformer α))
    (initialElement : α) : α :=
  Id.run do
    let mut element : α := initialElement
    for transformer in ssrTransformers do
      element := transformer element
    return element

/-- The `forEachExtension` handler of `onInitialize`: skip the extension when
it has no `createSSRTransformer` or when `exclude.reactSSR` is set; otherwise
push the produced transformer onto the registry. `getParameter` is the
parameter accessor of the manager. -/
def forEachExtension {π α : Type} (getParameter : SSRExtension π α → π)
    (ssrTransformers : List (SSRTransformer α)) (extension : SSRExtension π α) :
    List (SSRTransformer α) :=
  match extension.createSSRTransformer with
  | none => ssrTransformers
  | some create =>
    if extension.excludeReactSSR then ssrTransformers
    else ssrTransformers ++ [create (getParameter extension)]

/-- The registry built by the initialization pass: fold `forEachExtension`
over the extensions in registration order, starting from the empty array. -/
def initRegistry {π α : Type} (getParameter : SSRExtension π α → π)
    (extensions : List (SSRExtension π α)) : List (SSRTransformer α) :=
  extensions.foldl (forEachExtension getParameter) []

/-- The state shared by the closures of `onInitialize` during the initialization pass:
the mutable `ssrTransformers` array, and whether `afterExtensionLoop` has
already run `setStoreKey of ssrTransformer` (publishing the `ssrTransformer`
closure, which keeps reading the same array). -/
structure SSRInitState (π α : Type) where
  ssrTransformers : List (SSRTransformer α)
  publishedSSR : Bool

/-- The state at the start of `onInitialize`: empty array, nothing stored. -/
def SSRInitState.start (π α : Type) : SSRInitState π α :=
  { ssrTransformers := [], publishedSSR := false }

/-- Effect of one `forEachExtension` call on the initialization state: the
array is updated exactly as `forEachExtension` dictates; no check against
`publishedSSR` appears anywhere in the source. -/
def stepForEachExtension {π α : Type} (getParameter : SSRExtension π α → π)
    (s : SSRInitState π α) (extension : SSRExtension π α) : SSRInitState π α :=
  { s with ssrTransformers := forEachExtension getParameter s.ssrTransformers extension }

/-- Effect of `afterExtensionLoop`: `setStoreKey` stores the `ssrTransformer`
closure; the array itself is untouched. -/
def stepAfterExtensionLoop {π α : Type} (s : SSRInitState π α) : SSRInitState π α :=
  { s with publishedSSR := true }

/-- Applying the transformer published in the store: the stored closure reads
the `ssrTransformers` array as it is at call time. -/
def applyStoredSSR {π α : Type} (s : SSRInitState π α) (x : α) : α :=
  ssrTransformer s.ssrTransformers x

/-! #### The composed transformer under exception semantics

JSX transformers are JavaScript functions and may throw.  `ssrTransformerE`
is the same `for` loop as `ssrTransformer`, with the outcome of a transformer made
explicit: `Except.ok` for a normal return, `Except.error` for a thrown
exception.  The loop body contains no `try`/`catch`, so a throw aborts the
loop and propagates. -/
def ssrTransformerE {α ε : Type} (ssrTransformers : List (α → Except ε α))
    (initialElement : α) : Except ε α :=
  match ssrTransformers with
  | [] => Except.ok initialElement
  | transformer :: rest =>
    match transformer initialElement with
    | Except.error e => Except.error e
    | Except.ok element => ssrTransformerE rest element

/-! ### HelpersExtension -/

/-- The slice of an extension seen by `HelpersExtension.onView`: the optional
`createHelpers` method.  A returned helpers record is embedded as its list of
`entries` in insertion order; helper functions themselves are opaque, of type
`η`. -/
structure HExtension (η : Type) where
  createHelpers : Option (List (String × η))

/-- Modelled from the spec: `throwIfNameNotUnique` (imported from
`../helpers`, not part of this slice) checks a name against the set of names
seen so far and fails with a "duplicate name" error identifying the colliding
name; on success the name is added to the set. -/
def throwIfNameNotUnique (name : String) (set : List String) :
    Except RemirrorError (List String) :=
  if name ∈ set then Except.error (RemirrorError.duplicateHelperNames name)
  else Except.ok (name :: set)

/-- The inner `for` loop of the `forEachExtension` handler in `onView`: walk
the entries of the helpers record of one extension, checking each name for uniqueness and
assigning `helpers[name] = helper`.  The record is an association list;
since assignment only happens to a name proven fresh, it is an append. -/
def registerHelpers {η : Type} (names : List String) (helpers : List (String × η)) :
    List (String × η) → Except RemirrorError (List String × List (String × η))
  | [] => Except.ok (names, helpers)
  | (name, helper) :: rest =>
    match throwIfNameNotUnique name names with
    | Except.error e => Except.error e
    | Except.ok names' => registerHelpers names' (helpers ++ [(name, helper)]) rest

/-- The `forEachExtension` handler of `onView`: an extension without
`createHelpers` contributes nothing; otherwise its helpers record is folded
into the accumulated `(names, helpers)` state. -/
def helpersForEachExtension {η : Type} (acc : List String × List (String × η))
    (extension : HExtension η) :
    Except RemirrorError (List String × List (String × η)) :=
  match extension.createHelpers with
  | none => Except.ok acc
  | some extensionHelpers => registerHelpers acc.1 acc.2 extensionHelpers

/-- The whole `onView` pass: starting from the empty record and empty name
set, run `forEachExtension` over the extensions in order; `afterExtensionLoop`
then stores the accumulated `helpers` record. -/
def runHelpersLoop {η : Type} :
    List (HExtension η) → List String × List (String × η) →
      Except RemirrorError (List (String × η))
  | [], acc => Except.ok acc.2
  | extension :: rest, acc =>
    match helpersForEachExtension acc extension with
    | Except.error e => Except.error e
    | Except.ok acc' => runHelpersLoop rest acc'

/-- The full flattened sequence of `(name, helper)` contributions made by a
list of extensions, in contribution order. -/
def flatEntries {η : Type} (extensions : List (HExtension η)) : List (String × η) :=
  extensions.foldr (fun e acc => (e.createHelpers.getD []) ++ acc) []

/-- The `onCreate` hook of `HelpersExtension` registers the `helpers` accessor: it reads
the store key and passes it through `invariant`, which fails with
`HELPERS_CALLED_IN_OUTER_SCOPE` when the key is still unset (the modelled
behaviour of `invariant` from `@remirror/core-helpers`: error when its first
argument is falsy/absent, identity otherwise). -/
def helpersAccessor {η : Type} (storeHelpers : Option (List (String × η))) :
    Except RemirrorError (List (String × η)) :=
  match storeHelpers with
  | none => Except.error RemirrorError.helpersCalledInOuterScope
  | some helpers => Except.ok helpers

/-! ### enhanced-link-utils -/

/-- The JavaScript `String.prototype.startsWith` method: a plain textual prefix test,
embedded over the character sequence of the string. -/
def jsStartsWith (s pre : String) : Bool :=
  pre.data.isPrefixOf s.data

/-- Return the url unchanged when it starts with `"http"` or
with the protocol-relative `"//"`, otherwise prepend `"http://"`. -/
def extractHref (url : String) : String :=
  if jsStartsWith url "http" || jsStartsWith url "//" then url else "http://" ++ url

/-- Reject on unequal size, then check that every value of
`setOne` is a member of `setTwo`.  JavaScript `Set`s are embedded as
`Finset`s (duplicate-free, order-irrelevant by construction). -/
def isSetEqual {γ : Type} [DecidableEq γ] (setOne setTwo : Finset γ) : Bool :=
  if setOne.card ≠ setTwo.card then false
  else decide (∀ value ∈ setOne, value ∈ setTwo)

/-! ### Lemmas about the SSR pipeline -/

theorem ssrTransformer_nil {α : Type} (x : α) : ssrTransformer [] x = x := by
  simp [ssrTransformer, Id.run]

theorem ssrTransformer_cons {α : Type} (t : SSRTransformer α)
    (ts : List (SSRTransformer α)) (x : α) :
    ssrTransformer (t :: ts) x = ssrTransformer ts (t x) := by
  simp [ssrTransformer, Id.run]

theorem ssrTransformer_eq_foldl {α : Type} (ts : List (SSRTransformer α)) (x : α) :
    ssrTransformer ts x = ts.foldl (fun element t => t element) x := by
  induction ts generalizing x with
  | nil => simp [ssrTransformer_nil]
  | cons t rest ih => rw [ssrTransformer_cons, ih, List.foldl_cons]

theorem ssrTransformer_append {α : Type} (ts us : List (SSRTransformer α)) (x : α) :
    ssrTransformer (ts ++ us) x = ssrTransformer us (ssrTransformer ts x) := by
  induction ts generalizing x with
  | nil => rw [List.nil_append, ssrTransformer_nil]
  | cons t rest ih => rw [List.cons_append, ssrTransformer_cons, ssrTransformer_cons, ih]

/-- Coherence of the two loop embeddings: when every transformer returns
normally the exception-aware loop computes `ssrTransformer`. -/
theorem ssrTransformerE_of_total {α ε : Type} (ts : List (SSRTransformer α)) (x : α) :
    ssrTransformerE (ts.map (fun t => fun y => (Except.ok (t y) : Except ε α))) x =
      Except.ok (ssrTransformer ts x) := by
  induction ts generalizing x with
  | nil => simp [ssrTransformerE, ssrTransformer_nil]
  | cons t rest ih => simpa [ssrTransformerE, ssrTransformer_cons] using ih (t x)

/-- An extension without a factory, or with the exclusion flag set, leaves
the registry exactly as it was. -/
theorem forEachExtension_skip {π α : Type} (getParameter : SSRExtension π α → π)
    (ts : List (SSRTransformer α)) (extension : SSRExtension π α)
    (h : extension.createSSRTransformer = none ∨ extension.excludeReactSSR = true) :
    forEachExtension getParameter ts extension = ts := by
  rcases h with h | h
  · simp [forEachExtension, h]
  · cases hc : extension.createSSRTransformer <;> simp [forEachExtension, hc, h]

/-- Folding the registration step over any extension list is the same as
folding it over just the contributing (factory present, not excluded)
extensions. -/
theorem foldl_forEachExtension_filter {π α : Type} (getParameter : SSRExtension π α → π)
    (extensions : List (SSRExtension π α)) (acc : List (SSRTransformer α)) :
    extensions.foldl (forEachExtension getParameter) acc =
      (extensions.filter
        (fun e => e.createSSRTransformer.isSome && !e.excludeReactSSR)).foldl
        (forEachExtension getParameter) acc := by
  induction extensions generalizing acc with
  | nil => rfl
  | cons e rest ih =>
    by_cases hk : (e.createSSRTransformer.isSome && !e.excludeReactSSR) = true
    · have hf : (e :: rest).filter
          (fun e => e.createSSRTransformer.isSome && !e.excludeReactSSR) =
          e :: rest.filter (fun e => e.createSSRTransformer.isSome && !e.excludeReactSSR) := by
        rw [List.filter_cons]
        simp [hk]
      rw [List.foldl_cons, ih (forEachExtension getParameter acc e), hf, List.foldl_cons]
    · have hskip : forEachExtension getParameter acc e = acc := by
        apply forEachExtension_skip
        have hk' := hk
        rw [Bool.and_eq_true, not_and_or] at hk'
        rcases hk' with h | h
        · exact Or.inl (Option.not_isSome_iff_eq_none.mp h)
        · exact Or.inr (by simpa using h)
      have hf : (e :: rest).filter
          (fun e => e.createSSRTransformer.isSome && !e.excludeReactSSR) =
          rest.filter (fun e => e.createSSRTransformer.isSome && !e.excludeReactSSR) := by
        rw [List.filter_cons]
        simp [hk]
      rw [List.foldl_cons, hskip, hf]
      exact ih acc

/-! ### Claim theorems: SSR pipeline -/

/-- C1: the composed SSR transformer applies the registry entries left to
right in registration order — it equals the left fold, the transformer
pushed last runs last, for two registered transformers the result is
`t₂ (t₁ x)`, and there is a non-commuting pair and an input on which the
opposite order differs. -/
theorem C1_composition_in_registration_order {α : Type}
    (ts : List (SSRTransformer α)) (t : SSRTransformer α) (x : α) :
    ssrTransformer ts x = ts.foldl (fun element tr => tr element) x ∧
    ssrTransformer (ts ++ [t]) x = t (ssrTransformer ts x) ∧
    (∀ (t₁ t₂ : SSRTransformer ℕ) (y : ℕ), ssrTransformer [t₁, t₂] y = t₂ (t₁ y)) ∧
    (∃ (t₁ t₂ : SSRTransformer ℕ) (y : ℕ),
      ssrTransformer [t₁, t₂] y ≠ t₁ (t₂ y)) := by
  refine ⟨ssrTransformer_eq_foldl ts x, ?_, ?_, ?_⟩
  · rw [ssrTransformer_append, ssrTransformer_cons, ssrTransformer_nil]
  · intro t₁ t₂ y
    rw [ssrTransformer_cons, ssrTransformer_cons, ssrTransformer_nil]
  · refine ⟨fun n => n + 1, fun n => n * 2, 1, ?_⟩
    rw [ssrTransformer_cons, ssrTransformer_cons, ssrTransformer_nil]
    decide

/-- C4: with an empty registry the composed SSR transformer is the identity
function. -/
theorem C4_empty_registry_identity {α : Type} (x : α) :
    ssrTransformer ([] : List (SSRTransformer α)) x = x :=
  ssrTransformer_nil x

/-- C3: an excluded extension (exclusion flag set, or no factory defined)
leaves the registry untouched — its factory is never applied and nothing is
appended for it — and the output of the composed transformer on every input
equals the composition of only the contributing extensions. -/
theorem C3_exclusion_honored {π α : Type} (getParameter : SSRExtension π α → π)
    (extensions : List (SSRExtension π α)) (extension : SSRExtension π α)
    (ts : List (SSRTransformer α)) (x : α)
    (h : extension.createSSRTransformer = none ∨ extension.excludeReactSSR = true) :
    forEachExtension getParameter ts extension = ts ∧
    initRegistry getParameter extensions =
      initRegistry getParameter (extensions.filter
        (fun e => e.createSSRTransformer.isSome && !e.excludeReactSSR)) ∧
    ssrTransformer (initRegistry getParameter extensions) x =
      ssrTransformer (initRegistry getParameter (extensions.filter
        (fun e => e.createSSRTransformer.isSome && !e.excludeReactSSR))) x := by
  have hreg := foldl_forEachExtension_filter getParameter extensions
    ([] : List (SSRTransformer α))
  exact ⟨forEachExtension_skip getParameter ts extension h, hreg, by rw [initRegistry, hreg]; rfl⟩

/-- Witness for C3 at a concrete excluded extension. -/
theorem C3_exclusion_honored_witness :
    forEachExtension (fun _ => ()) [fun n => n + 1]
      ({ createSSRTransformer := some (fun _ => fun n => n * 2),
         excludeReactSSR := true } : SSRExtension Unit ℕ) = [fun n => n + 1] :=
  (C3_exclusion_honored (fun _ => ()) [] _ [fun n => n + 1] 0 (Or.inr rfl)).1

/-- C7: if every transformer before position `i` returns normally and the
transformer at position `i` throws `e`, applying the composed transformer
propagates exactly `e`: no catching, no retry, no default. -/
theorem C7_first_error_propagates {α ε : Type} (pre post : List (α → Except ε α))
    (t : α → Except ε α) (x y : α) (e : ε)
    (hpre : ssrTransformerE pre x = Except.ok y) (ht : t y = Except.error e) :
    ssrTransformerE (pre ++ t :: post) x = Except.error e := by
  induction pre generalizing x with
  | nil =>
    rw [List.nil_append]
    rw [ssrTransformerE] at hpre
    cases hpre
    rw [ssrTransformerE, ht]
  | cons p rest ih =>
    rw [List.cons_append, ssrTransformerE]
    rw [ssrTransformerE] at hpre
    cases hp : p x with
    | error e' => rw [hp] at hpre; cases hpre
    | ok z => rw [hp] at hpre; exact ih z hpre

/-- Witness for C7: a pipeline whose second transformer throws propagates
that error from position two, past the succeeding first transformer and the
never-reached third. -/
theorem C7_first_error_propagates_witness :
    ssrTransformerE
      ([fun n => Except.ok (n + 1)] ++
        (fun _ => (Except.error "boom" : Except String ℕ)) :: [fun n => Except.ok (n * 2)])
      5 = Except.error "boom" :=
  C7_first_error_propagates [fun n => Except.ok (n + 1)] [fun n => Except.ok (n * 2)]
    (fun _ => Except.error "boom") 5 6 "boom" rfl rfl

/-- C2 (counterexample): the claim that registering after finalization fails
fast is false.  Concretely: with one transformer registered and the pipeline
published by `afterExtensionLoop`, a further `forEachExtension` registration
is not rejected — no error exists anywhere in `onInitialize` — and it
silently changes the output of the already-published pipeline, because the
published `ssrTransformer` closure reads the mutable array at call time. -/
theorem C2_register_after_publish_is_silent :
    (stepForEachExtension (fun _ => ())
        (stepAfterExtensionLoop
          ({ ssrTransformers := [fun n => n + 1], publishedSSR := false } :
            SSRInitState Unit ℕ))
        { createSSRTransformer := some (fun _ => fun n => n * 2),
          excludeReactSSR := false }).publishedSSR = true ∧
    applyStoredSSR
        (stepForEachExtension (fun _ => ())
          (stepAfterExtensionLoop
            ({ ssrTransformers := [fun n => n + 1], publishedSSR := false } :
              SSRInitState Unit ℕ))
          { createSSRTransformer := some (fun _ => fun n => n * 2),
            excludeReactSSR := false }) 0 ≠
      applyStoredSSR
        (stepAfterExtensionLoop
          ({ ssrTransformers := [fun n => n + 1], publishedSSR := false } :
            SSRInitState Unit ℕ)) 0 := by
  constructor
  · rfl
  · show ssrTransformer [fun n => n + 1, fun n => n * 2] 0 ≠
      ssrTransformer [fun n => n + 1] 0
    rw [ssrTransformer_cons, ssrTransformer_cons, ssrTransformer_nil,
      ssrTransformer_cons, ssrTransformer_nil]
    decide

/-- C2 (amended): `onInitialize` performs no precondition check against the
published pipeline.  A registration applied after `afterExtensionLoop`
succeeds unconditionally: the published flag is untouched, the transformer is
appended to the registry, and the already-published pipeline — whose closure
reads the registry at call time — now applies the new transformer last. -/
theorem C2_no_fail_fast_after_publish {π α : Type}
    (getParameter : SSRExtension π α → π) (s : SSRInitState π α)
    (extension : SSRExtension π α) (create : π → SSRTransformer α) (x : α)
    (hpub : s.publishedSSR = true)
    (hc : extension.createSSRTransformer = some create)
    (he : extension.excludeReactSSR = false) :
    (stepForEachExtension getParameter s extension).publishedSSR = true ∧
    (stepForEachExtension getParameter s extension).ssrTransformers =
      s.ssrTransformers ++ [create (getParameter extension)] ∧
    applyStoredSSR (stepForEachExtension getParameter s extension) x =
      create (getParameter extension) (applyStoredSSR s x) := by
  have harr : (stepForEachExtension getParameter s extension).ssrTransformers =
      s.ssrTransformers ++ [create (getParameter extension)] := by
    simp [stepForEachExtension, forEachExtension, hc, he]
  refine ⟨by simpa [stepForEachExtension] using hpub, harr, ?_⟩
  rw [applyStoredSSR, harr, ssrTransformer_append, ssrTransformer_cons,
    ssrTransformer_nil, applyStoredSSR]

/-- Witness for the amended C2 at a concrete published state. -/
theorem C2_no_fail_fast_after_publish_witness :
    (stepForEachExtension (fun _ => ())
        ({ ssrTransformers := [fun n => n + 1], publishedSSR := true } :
          SSRInitState Unit ℕ)
        { createSSRTransformer := some (fun _ => fun n => n * 2),
          excludeReactSSR := false }).publishedSSR = true ∧
    (stepForEachExtension (fun _ => ())
        ({ ssrTransformers := [fun n => n + 1], publishedSSR := true } :
          SSRInitState Unit ℕ)
        { createSSRTransformer := some (fun _ => fun n => n * 2),
          excludeReactSSR := false }).ssrTransformers =
      [fun n => n + 1] ++ [fun n => n * 2] ∧
    applyStoredSSR
        (stepForEachExtension (fun _ => ())
          ({ ssrTransformers := [fun n => n + 1], publishedSSR := true } :
            SSRInitState Unit ℕ)
          { createSSRTransformer := some (fun _ => fun n => n * 2),
            excludeReactSSR := false }) 3 =
      (applyStoredSSR
        ({ ssrTransformers := [fun n => n + 1], publishedSSR := true } :
          SSRInitState Unit ℕ) 3) * 2 :=
  C2_no_fail_fast_after_publish (fun _ => ())
    { ssrTransformers := [fun n => n + 1], publishedSSR := true }
    { createSSRTransformer := some (fun _ => fun n => n * 2),
      excludeReactSSR := false }
    (fun _ => fun n => n * 2) 3 rfl rfl rfl

/-! ### Lemmas about the helpers aggregation -/

/-- When the incoming names are pairwise distinct and fresh for the name
set, the inner registration loop succeeds and appends every entry to the
record in order. -/
theorem registerHelpers_ok {η : Type} (entries : List (String × η)) :
    ∀ (names : List String) (helpers : List (String × η)),
      (entries.map Prod.fst).Nodup →
      (∀ n ∈ entries.map Prod.fst, n ∉ names) →
      ∃ names', registerHelpers names helpers entries =
        Except.ok (names', helpers ++ entries) := by
  induction entries with
  | nil =>
    intro names helpers _ _
    exact ⟨names, by simp [registerHelpers]⟩
  | cons p rest ih =>
    intro names helpers hnodup hdisj
    obtain ⟨name, helper⟩ := p
    rw [List.map_cons, List.nodup_cons] at hnodup
    have hmem : name ∉ names := hdisj name (by simp)
    have hth : throwIfNameNotUnique name names = Except.ok (name :: names) := by
      simp [throwIfNameNotUnique, hmem]
    have hdisj' : ∀ n ∈ rest.map Prod.fst, n ∉ name :: names := by
      intro n hn
      rw [List.mem_cons, not_or]
      refine ⟨fun h => hnodup.1 (h ▸ hn), hdisj n (List.mem_cons_of_mem _ hn)⟩
    obtain ⟨names', heq⟩ := ih (name :: names) (helpers ++ [(name, helper)])
      hnodup.2 hdisj'
    refine ⟨names', ?_⟩
    simp only [registerHelpers]
    rw [hth]
    show registerHelpers (name :: names) (helpers ++ [(name, helper)]) rest =
      Except.ok (names', helpers ++ (name, helper) :: rest)
    rw [heq]
    simp

/-- When the incoming names collide — among themselves or with the name set —
the inner registration loop fails with a duplicate-name error, and the
reported name is a genuine collision: it is already in the name set, or it
occurs at least twice among the incoming names. -/
theorem registerHelpers_error {η : Type} (entries : List (String × η)) :
    ∀ (names : List String) (helpers : List (String × η)),
      ¬ ((entries.map Prod.fst).Nodup ∧ ∀ n ∈ entries.map Prod.fst, n ∉ names) →
      ∃ n, registerHelpers names helpers entries =
          Except.error (RemirrorError.duplicateHelperNames n) ∧
        n ∈ entries.map Prod.fst ∧
        (n ∈ names ∨ 2 ≤ (entries.map Prod.fst).count n) := by
  induction entries with
  | nil =>
    intro names helpers h
    exact absurd ⟨List.nodup_nil, by simp⟩ h
  | cons p rest ih =>
    intro names helpers h
    obtain ⟨name, helper⟩ := p
    by_cases hmem : name ∈ names
    · refine ⟨name, ?_, by simp, Or.inl hmem⟩
      simp [registerHelpers, throwIfNameNotUnique, hmem]
    · have hth : throwIfNameNotUnique name names = Except.ok (name :: names) := by
        simp [throwIfNameNotUnique, hmem]
      have hrec : ¬ ((rest.map Prod.fst).Nodup ∧
          ∀ n ∈ rest.map Prod.fst, n ∉ name :: names) := by
        rintro ⟨hnd, hdj⟩
        apply h
        constructor
        · rw [List.map_cons, List.nodup_cons]
          exact ⟨fun hc => (hdj name hc) (by simp), hnd⟩
        · intro n hn
          rw [List.map_cons, List.mem_cons] at hn
          rcases hn with rfl | hn'
          · exact hmem
          · intro hcn
            exact (hdj n hn') (List.mem_cons_of_mem _ hcn)
      obtain ⟨n, heq, hmem', hcase⟩ := ih (name :: names) (helpers ++ [(name, helper)]) hrec
      refine ⟨n, ?_, ?_, ?_⟩
      · simp only [registerHelpers]
        rw [hth]
        exact heq
      · rw [List.map_cons]
        exact List.mem_cons_of_mem _ hmem'
      · rcases hcase with hn | hcount
        · rcases List.mem_cons.mp hn with rfl | hn'
          · right
            rw [List.map_cons]
            dsimp only
            rw [List.count_cons_self]
            have h1 : 0 < (rest.map Prod.fst).count n := List.count_pos_iff.mpr hmem'
            omega
          · exact Or.inl hn'
        · right
          rw [List.map_cons]
          dsimp only
          have hsub : (rest.map Prod.fst).count n ≤ (name :: rest.map Prod.fst).count n :=
            (List.sublist_cons_self name (rest.map Prod.fst)).count_le n
          omega

/-- The per-extension handler of `onView` is the inner loop applied to the
(possibly absent) entries of the extension. -/
theorem helpersForEachExtension_eq {η : Type} (acc : List String × List (String × η))
    (extension : HExtension η) :
    helpersForEachExtension acc extension =
      registerHelpers acc.1 acc.2 (extension.createHelpers.getD []) := by
  cases h : extension.createHelpers with
  | none => simp [helpersForEachExtension, h, registerHelpers]
  | some l => simp [helpersForEachExtension, h]

/-- The inner loop splits over concatenation of entry lists. -/
theorem registerHelpers_append {η : Type} (e1 e2 : List (String × η)) :
    ∀ (names : List String) (helpers : List (String × η)),
      registerHelpers names helpers (e1 ++ e2) =
        match registerHelpers names helpers e1 with
        | Except.error e => Except.error e
        | Except.ok acc => registerHelpers acc.1 acc.2 e2 := by
  induction e1 with
  | nil =>
    intro names helpers
    simp [registerHelpers]
  | cons p rest ih =>
    intro names helpers
    obtain ⟨name, helper⟩ := p
    rw [List.cons_append]
    simp only [registerHelpers]
    cases hth : throwIfNameNotUnique name names with
    | error e => rfl
    | ok names' => exact ih names' (helpers ++ [(name, helper)])

/-- The whole `onView` pass equals the inner loop run on the flattened
contributions, projecting out the final record. -/
theorem runHelpersLoop_eq_registerHelpers {η : Type} (exts : List (HExtension η)) :
    ∀ (acc : List String × List (String × η)),
      runHelpersLoop exts acc =
        match registerHelpers acc.1 acc.2 (flatEntries exts) with
        | Except.error e => Except.error e
        | Except.ok acc' => Except.ok acc'.2 := by
  induction exts with
  | nil =>
    intro acc
    simp [runHelpersLoop, flatEntries, registerHelpers]
  | cons e rest ih =>
    intro acc
    have hflat : flatEntries (e :: rest) = e.createHelpers.getD [] ++ flatEntries rest := rfl
    rw [hflat, registerHelpers_append]
    simp only [runHelpersLoop, helpersForEachExtension_eq]
    cases hr : registerHelpers acc.1 acc.2 (e.createHelpers.getD []) with
    | error err => rfl
    | ok acc' => exact ih acc'

/-- In a record with pairwise distinct names, looking up the name of a
contribution yields the helper of that contribution. -/
theorem lookup_of_mem_nodup {η : Type} (l : List (String × η))
    (hnd : (l.map Prod.fst).Nodup) : ∀ p ∈ l, l.lookup p.1 = some p.2 := by
  induction l with
  | nil => simp
  | cons q rest ih =>
    intro p hp
    obtain ⟨qn, qv⟩ := q
    rw [List.map_cons, List.nodup_cons] at hnd
    rcases List.mem_cons.mp hp with rfl | hp'
    · simp [List.lookup]
    · have hmm : p.1 ∈ rest.map Prod.fst := List.mem_map_of_mem Prod.fst hp'
      have hne : p.1 ≠ qn := by
        intro h
        rw [h] at hmm
        exact hnd.1 hmm
      have hbeq : (p.1 == qn) = false := beq_eq_false_iff_ne.mpr hne
      simp only [List.lookup, hbeq]
      exact ih hnd.2 p hp'

/-! ### Claim theorems: helpers aggregation -/

/-- C5: with pairwise-distinct contributed names the aggregation succeeds
and every contributed helper is found in the final record under its name;
with a repeated name it fails with a duplicate-name error whose reported
name really occurs at least twice. -/
theorem C5_duplicate_helper_names {η : Type} (exts : List (HExtension η)) :
    (((flatEntries exts).map Prod.fst).Nodup →
      runHelpersLoop exts ([], []) = Except.ok (flatEntries exts) ∧
      ∀ p ∈ flatEntries exts, (flatEntries exts).lookup p.1 = some p.2) ∧
    (¬ ((flatEntries exts).map Prod.fst).Nodup →
      ∃ n, runHelpersLoop exts ([], []) =
          Except.error (RemirrorError.duplicateHelperNames n) ∧
        2 ≤ ((flatEntries exts).map Prod.fst).count n) := by
  constructor
  · intro hnd
    obtain ⟨names', heq⟩ := registerHelpers_ok (flatEntries exts) [] [] hnd
      (by intro n _ hc; exact absurd hc (List.not_mem_nil n))
    rw [runHelpersLoop_eq_registerHelpers exts ([], [])]
    refine ⟨?_, lookup_of_mem_nodup _ hnd⟩
    rw [heq]
    simp
  · intro hnd
    obtain ⟨n, heq, _, hcase⟩ := registerHelpers_error (flatEntries exts) [] []
      (by rintro ⟨h1, _⟩; exact hnd h1)
    refine ⟨n, ?_, ?_⟩
    · rw [runHelpersLoop_eq_registerHelpers exts ([], []), heq]
    · rcases hcase with hn | hc
      · exact absurd hn (List.not_mem_nil n)
      · exact hc

/-- Witness for C5: a distinct-name configuration aggregates every helper,
and a configuration in which two extensions contribute the name `a` fails
with the duplicate-name error for `a`. -/
theorem C5_duplicate_helper_names_witness :
    (runHelpersLoop
        [({ createHelpers := some [("a", 1), ("b", 2)] } : HExtension ℕ),
          { createHelpers := none }, { createHelpers := some [("c", 3)] }] ([], []) =
      Except.ok (flatEntries
        [({ createHelpers := some [("a", 1), ("b", 2)] } : HExtension ℕ),
          { createHelpers := none }, { createHelpers := some [("c", 3)] }]) ∧
      ∀ p ∈ flatEntries
          [({ createHelpers := some [("a", 1), ("b", 2)] } : HExtension ℕ),
            { createHelpers := none }, { createHelpers := some [("c", 3)] }],
        (flatEntries
          [({ createHelpers := some [("a", 1), ("b", 2)] } : HExtension ℕ),
            { createHelpers := none }, { createHelpers := some [("c", 3)] }]).lookup p.1 =
          some p.2) ∧
    (∃ n, runHelpersLoop
        [({ createHelpers := some [("a", 1)] } : HExtension ℕ),
          { createHelpers := some [("a", 3)] }] ([], []) =
        Except.error (RemirrorError.duplicateHelperNames n) ∧
      2 ≤ ((flatEntries
        [({ createHelpers := some [("a", 1)] } : HExtension ℕ),
          { createHelpers := some [("a", 3)] }]).map Prod.fst).count n) :=
  ⟨(C5_duplicate_helper_names
      [({ createHelpers := some [("a", 1), ("b", 2)] } : HExtension ℕ),
        { createHelpers := none }, { createHelpers := some [("c", 3)] }]).1 (by decide),
   (C5_duplicate_helper_names
      [({ createHelpers := some [("a", 1)] } : HExtension ℕ),
        { createHelpers := some [("a", 3)] }]).2 (by decide)⟩

/-- C6: the published helpers accessor fails with the outer-scope error
while the store key is unset, and returns exactly the stored record once it
is set. -/
theorem C6_helpers_accessor_scope {η : Type} (helpers : List (String × η)) :
    helpersAccessor (none : Option (List (String × η))) =
      Except.error RemirrorError.helpersCalledInOuterScope ∧
    helpersAccessor (some helpers) = Except.ok helpers :=
  ⟨rfl, rfl⟩

/-! ### Claim theorems: enhanced-link utilities -/

/-- Prepending the default scheme yields a string that passes the textual
`"http"` prefix test. -/
theorem jsStartsWith_http_append (s : String) :
    jsStartsWith ("http://" ++ s) "http" = true := by
  rw [jsStartsWith, List.isPrefixOf_iff_prefix, String.data_append]
  exact List.IsPrefix.trans ⟨[':', '/', '/'], by decide⟩ (List.prefix_append _ _)

/-- C8: `extractHref` returns the url unchanged when it starts with the
scheme prefix `"http"` or with the protocol-relative `"//"`, and otherwise
prepends `"http://"`; in particular on the three spec examples. -/
theorem C8_extractHref_normalization (url : String) :
    (jsStartsWith url "http" = true ∨ jsStartsWith url "//" = true →
      extractHref url = url) ∧
    (jsStartsWith url "http" = false ∧ jsStartsWith url "//" = false →
      extractHref url = "http://" ++ url) ∧
    extractHref "example.com" = "http://example.com" ∧
    extractHref "http://example.com" = "http://example.com" ∧
    extractHref "//cdn.example.com/x" = "//cdn.example.com/x" := by
  refine ⟨?_, ?_, by decide, by decide, by decide⟩
  · intro h
    rcases h with h | h <;> simp [extractHref, h]
  · rintro ⟨h1, h2⟩
    simp [extractHref, h1, h2]

/-- Witness for C8: both branches of the normalization at concrete urls. -/
theorem C8_extractHref_normalization_witness :
    extractHref "//cdn.example.com/x" = "//cdn.example.com/x" ∧
    extractHref "example.com" = "http://example.com" :=
  ⟨(C8_extractHref_normalization "//cdn.example.com/x").1 (Or.inr (by decide)),
   (C8_extractHref_normalization "example.com").2.1 ⟨by decide, by decide⟩⟩

/-- C10: the scheme check is a plain textual prefix test on the four
characters `"http"` — any string starting with them is returned unchanged —
and every output of `extractHref` starts with `"http"` or with `"//"`. -/
theorem C10_scheme_check_is_textual (s : String) :
    (jsStartsWith s "http" = true → extractHref s = s) ∧
    (jsStartsWith (extractHref s) "http" = true ∨
      jsStartsWith (extractHref s) "//" = true) := by
  constructor
  · intro h
    simp [extractHref, h]
  · by_cases h : (jsStartsWith s "http" || jsStartsWith s "//") = true
    · have he : extractHref s = s := by simp [extractHref, h]
      rw [he]
      exact Bool.or_eq_true _ _ |>.mp h
    · have he : extractHref s = "http://" ++ s := by simp [extractHref, h]
      rw [he]
      exact Or.inl (jsStartsWith_http_append s)

/-- Witness for C10: `"httpfoo"` starts with `"http"` so it is returned
unchanged even though it is not a URL. -/
theorem C10_scheme_check_is_textual_witness :
    extractHref "httpfoo" = "httpfoo" :=
  (C10_scheme_check_is_textual "httpfoo").1 (by decide)

/-- C9: `isSetEqual` decides mathematical set equality — true exactly when
the two sets have the same elements — rejecting first on unequal
cardinality; in particular on the three spec examples. -/
theorem C9_isSetEqual_set_equality :
    (∀ (γ : Type) [DecidableEq γ] (A B : Finset γ), (isSetEqual A B = true ↔ A = B)) ∧
    (∀ (γ : Type) [DecidableEq γ] (A B : Finset γ),
      A.card ≠ B.card → isSetEqual A B = false) ∧
    isSetEqual ({1, 2, 3} : Finset ℕ) {3, 2, 1} = true ∧
    isSetEqual ({1, 2} : Finset ℕ) {1, 2, 3} = false ∧
    isSetEqual (∅ : Finset ℕ) ∅ = true := by
  have hmain : ∀ (γ : Type) [DecidableEq γ] (A B : Finset γ),
      (isSetEqual A B = true ↔ A = B) := by
    intro γ _ A B
    rw [isSetEqual]
    by_cases h : A.card = B.card
    · rw [if_neg (not_not_intro h), decide_eq_true_iff]
      constructor
      · intro hall
        exact Finset.eq_of_subset_of_card_le (fun v hv => hall v hv) (le_of_eq h.symm)
      · rintro rfl
        exact fun v hv => hv
    · rw [if_pos h]
      simp only [Bool.false_eq_true, false_iff]
      rintro rfl
      exact h rfl
  refine ⟨hmain, ?_, by decide, by decide, by decide⟩
  intro γ _ A B hne
  rw [isSetEqual, if_pos hne]

/-- Witness for C9: the cardinality fast-rejection and the equivalence at
concrete sets. -/
theorem C9_isSetEqual_set_equality_witness :
    isSetEqual ({4} : Finset ℕ) {4, 7} = false ∧
    (isSetEqual ({5, 6} : Finset ℕ) {6, 5} = true ↔ ({5, 6} : Finset ℕ) = {6, 5}) :=
  ⟨C9_isSetEqual_set_equality.2.1 ℕ {4} {4, 7} (by decide),
   C9_isSetEqual_set_equality.1 ℕ {5, 6} {6, 5}⟩

end RemirrorSpec
